import Mathlib

/-!
Verification development for the asteroid speech-enhancement repository
(DeMask model and the permutation-invariant-training loss family).

The DeMask model code (src/asteroid/models/demask.py) is embedded directly.
External collaborators that the repository does not ship (filterbank
encoder/decoder factory, normalization/activation registries, the PIT loss
wrapper and the metric library, for which only tests are present) are
modelled from the specification; each such definition carries a doc comment
starting with "Modelled from the spec:".
-/

namespace Asteroid

/-- Values that can appear in a Python keyword-argument dictionary
(strings, integers, rationals, integer lists, nested dicts).  Used to
embed the fb_kwargs catch-all of DeMask.__init__ and the dictionary
returned by get_model_args. -/
inductive PyVal where
  | pstr (s : String)
  | pnat (n : Nat)
  | prat (q : Rat)
  | plist (l : List Nat)
  | pdict (d : List (String × PyVal))

/-- Configuration of a DeMask model: the constructor arguments of
DeMask.__init__ (src/asteroid/models/demask.py, lines 37-52), with the
keyword catch-all fb_kwargs embedded as an association list. -/
structure DeMaskConf where
  input_type : String
  output_type : String
  hidden_dims : List Nat
  dropout : Rat
  activation : String
  mask_act : String
  norm_type : String
  fb_type : String
  n_filters : Nat
  stride : Nat
  kernel_size : Nat
  sample_rate : Nat
  fb_kwargs : List (String × PyVal)

/-- The default constructor arguments of DeMask.__init__. -/
def defaultConf : DeMaskConf :=
  { input_type := "mag"
    output_type := "mag"
    hidden_dims := [1024]
    dropout := 0
    activation := "relu"
    mask_act := "relu"
    norm_type := "gLN"
    fb_type := "stft"
    n_filters := 512
    stride := 256
    kernel_size := 512
    sample_rate := 16000
    fb_kwargs := [] }

/-- Modelled from the spec: the normalization-layer factory is a closed
string-keyed registry, validated eagerly with an unknown-key error
(spec sections 6 and 9); the valid keys are the ones the DeMask docstring
lists for norm_type. -/
def normKeys : List String := ["gLN", "cLN", "BN"]

/-- Modelled from the spec: norms.get, the string-keyed lookup into the
normalization registry; unknown keys error. -/
def normsGet (key : String) : Except String String :=
  if normKeys.contains key then .ok key else .error ("Unknown norm key " ++ key)

/-- Modelled from the spec: the activation-function factory is a closed
string-keyed registry keyed by names such as relu (spec section 6). -/
def actKeys : List String := ["relu", "sigmoid", "tanh", "softmax", "linear"]

/-- Modelled from the spec: activations.get, the string-keyed lookup into
the activation registry; unknown keys error. -/
def activationsGet (key : String) : Except String String :=
  if actKeys.contains key then .ok key else .error ("Unknown activation key " ++ key)

/-- Modelled from the spec: the analysis/synthesis filterbank families the
DeMask docstring allows for fb_type. -/
def fbKeys : List String := ["stft", "free", "analytic_free"]

/-- Modelled from the spec: make_enc_dec builds the encoder/decoder pair;
here it validates the filterbank family and exposes the only attribute the
DeMask code reads from the encoder, the output feature count n_feats_out.
The exact feature-count formula is immaterial to the claims; the model uses
the filter count. -/
def makeEncDec (conf : DeMaskConf) : Except String Nat :=
  if fbKeys.contains conf.fb_type then .ok conf.n_filters
  else .error ("Unknown filterbank type " ++ conf.fb_type)

/-- DeMask._get_n_feats_input (src/asteroid/models/demask.py, lines
102-112): reim passes the full feature count through, anything outside
mag/reim/cat raises NotImplementedError, mag uses half the features and
cat additionally concatenates the full features. -/
def get_n_feats_input (input_type : String) (nFeatsOut : Nat) : Except String Nat :=
  if input_type = "reim" then .ok nFeatsOut
  else if input_type ≠ "mag" ∧ input_type ≠ "cat" then
    .error "NotImplementedError: Input type should be either mag, reim or cat"
  else .ok (if input_type = "cat" then nFeatsOut / 2 + nFeatsOut else nFeatsOut / 2)

/-- DeMask._get_n_feats_output (src/asteroid/models/demask.py, lines
114-119): mag yields half the features, reim the full features, anything
else raises NotImplementedError. -/
def get_n_feats_output (output_type : String) (nFeatsOut : Nat) : Except String Nat :=
  if output_type = "mag" then .ok (nFeatsOut / 2)
  else if output_type = "reim" then .ok nFeatsOut
  else .error "NotImplementedError: Output type should be either mag or reim"

/-- One layer of the masker network built by DeMask._build_masker_nn. -/
inductive Layer where
  | normLayer (typ : String) (chan : Nat)
  | conv1d (cin cout kernel : Nat)
  | act (name : String)
  | dropoutLayer (p : Rat)
deriving DecidableEq

/-- DeMask._build_masker_nn (src/asteroid/models/demask.py, lines 81-100):
computes the input feature count, resolves the normalization and activation
factories, stacks one block of conv/norm/activation/dropout per hidden
dimension, and closes with a 1x1 convolution to the output feature count
followed by the mask activation. -/
def build_masker_nn (conf : DeMaskConf) (nFeatsOut : Nat) : Except String (List Layer) :=
  match get_n_feats_input conf.input_type nFeatsOut with
  | .error e => .error e
  | .ok nIn =>
    match normsGet conf.norm_type with
    | .error e => .error e
    | .ok _ =>
      match activationsGet conf.activation with
      | .error e => .error e
      | .ok _ =>
        let start : List Layer × Nat := ([Layer.normLayer conf.norm_type nIn], nIn)
        let built := conf.hidden_dims.foldl
          (fun acc h =>
            (acc.1 ++ [Layer.conv1d acc.2 h 1, Layer.normLayer conf.norm_type h,
                       Layer.act conf.activation, Layer.dropoutLayer conf.dropout], h))
          start
        match get_n_feats_output conf.output_type nFeatsOut with
        | .error e => .error e
        | .ok nOut =>
          match activationsGet conf.mask_act with
          | .error e => .error e
          | .ok _ => .ok (built.1 ++ [Layer.conv1d built.2 nOut 1, Layer.act conf.mask_act])

/-- A successfully constructed DeMask model: its configuration, the
encoder output feature count, and the masker layer stack. -/
structure DeMaskModel where
  conf : DeMaskConf
  n_feats_out : Nat
  masker : List Layer

/-- DeMask.__init__ (src/asteroid/models/demask.py, lines 37-79): stores
the configuration, builds the encoder/decoder pair, then builds the masker
network; any validation failure surfaces as a construction error. -/
def DeMaskInit (conf : DeMaskConf) : Except String DeMaskModel :=
  match makeEncDec conf with
  | .error e => .error e
  | .ok nFeatsOut =>
    match build_masker_nn conf nFeatsOut with
    | .error e => .error e
    | .ok net => .ok ⟨conf, nFeatsOut, net⟩

/-- Python dictionary write d[k] = v: overwrite in place if the key is
present, append otherwise. -/
def dictSet (d : List (String × PyVal)) (k : String) (v : PyVal) : List (String × PyVal) :=
  if d.any (fun kv => kv.1 = k) then d.map (fun kv => if kv.1 = k then (k, v) else kv)
  else d ++ [(k, v)]

/-- Python dict.update: write every entry of the second dict into the
first, in order. -/
def dictUpdate (d u : List (String × PyVal)) : List (String × PyVal) :=
  u.foldl (fun acc kv => dictSet acc kv.1 kv.2) d

/-- DeMask.get_model_args (src/asteroid/models/demask.py, lines 167-185):
the thirteen-key dictionary, including fb_kwargs itself under the key
"fb_kwargs", then updated with the entries of fb_kwargs. -/
def get_model_args (m : DeMaskModel) : List (String × PyVal) :=
  dictUpdate
    [("input_type", .pstr m.conf.input_type),
     ("output_type", .pstr m.conf.output_type),
     ("hidden_dims", .plist m.conf.hidden_dims),
     ("dropout", .prat m.conf.dropout),
     ("activation", .pstr m.conf.activation),
     ("mask_act", .pstr m.conf.mask_act),
     ("norm_type", .pstr m.conf.norm_type),
     ("fb_type", .pstr m.conf.fb_type),
     ("n_filters", .pnat m.conf.n_filters),
     ("stride", .pnat m.conf.stride),
     ("kernel_size", .pnat m.conf.kernel_size),
     ("fb_kwargs", .pdict m.conf.fb_kwargs),
     ("sample_rate", .pnat m.conf.sample_rate)]
    m.conf.fb_kwargs

/-- The named parameters of DeMask.__init__; any other keyword passed via
a double-star splat lands in the fb_kwargs catch-all. -/
def demaskParamNames : List String :=
  ["input_type", "output_type", "hidden_dims", "dropout", "activation", "mask_act",
   "norm_type", "fb_type", "n_filters", "stride", "kernel_size", "sample_rate"]

/-- Read a string-valued keyword from a kwargs dict, falling back to the
parameter default. -/
def getStrArg (d : List (String × PyVal)) (k dflt : String) : String :=
  match List.lookup k d with
  | some (.pstr s) => s
  | _ => dflt

/-- Read a natural-valued keyword from a kwargs dict, falling back to the
parameter default. -/
def getNatArg (d : List (String × PyVal)) (k : String) (dflt : Nat) : Nat :=
  match List.lookup k d with
  | some (.pnat n) => n
  | _ => dflt

/-- Read a rational-valued keyword from a kwargs dict, falling back to the
parameter default. -/
def getRatArg (d : List (String × PyVal)) (k : String) (dflt : Rat) : Rat :=
  match List.lookup k d with
  | some (.prat q) => q
  | _ => dflt

/-- Read a list-valued keyword from a kwargs dict, falling back to the
parameter default. -/
def getListArg (d : List (String × PyVal)) (k : String) (dflt : List Nat) : List Nat :=
  match List.lookup k d with
  | some (.plist l) => l
  | _ => dflt

/-- Calling DeMask with a double-star-splatted kwargs dictionary: every
key naming a declared parameter binds that parameter, every other key
(including a literal "fb_kwargs" key) is collected, in dictionary order,
into the fb_kwargs catch-all of the new instance. -/
def demaskConfOfKwargs (d : List (String × PyVal)) : DeMaskConf :=
  { input_type := getStrArg d "input_type" "mag"
    output_type := getStrArg d "output_type" "mag"
    hidden_dims := getListArg d "hidden_dims" [1024]
    dropout := getRatArg d "dropout" 0
    activation := getStrArg d "activation" "relu"
    mask_act := getStrArg d "mask_act" "relu"
    norm_type := getStrArg d "norm_type" "gLN"
    fb_type := getStrArg d "fb_type" "stft"
    n_filters := getNatArg d "n_filters" 512
    stride := getNatArg d "stride" 256
    kernel_size := getNatArg d "kernel_size" 512
    sample_rate := getNatArg d "sample_rate" 16000
    fb_kwargs := d.filter (fun kv => ¬ demaskParamNames.contains kv.1) }

/-! ### Shape-level semantics of DeMask.forward

Tensor shapes are lists of dimension sizes.  The operations appearing in
DeMask.forward (src/asteroid/models/demask.py, lines 121-142) are embedded
at the shape level; the product uses the broadcasting rules of the tensor
runtime, and the external encoder/decoder/padding collaborators are
modelled from the spec with the frame-count and sample-count functions left
as parameters so that results hold for every filterbank stride and kernel
choice. -/

/-- A tensor shape: the list of dimension sizes. -/
abbrev Shp := List Nat

/-- Insert a singleton dimension at position i (torch unsqueeze at shape
level). -/
def insertOneAt (i : Nat) (s : Shp) : Shp := s.take i ++ [1] ++ s.drop i

/-- torch squeeze(0) at shape level: drop the leading dimension when it
has size one, otherwise leave the shape unchanged. -/
def squeeze0Shp : Shp → Shp
  | 1 :: rest => rest
  | s => s

/-- Broadcasting of one aligned dimension pair: equal sizes pass through
and a size-one dimension stretches to the other side. -/
def bcastDim (a b : Nat) : Option Nat :=
  if a = b then some a else if a = 1 then some b else if b = 1 then some a else none

/-- Broadcasting over shapes already reversed so that trailing dimensions
are aligned first; a missing dimension behaves as size one. -/
def broadcastRev : List Nat → List Nat → Option (List Nat)
  | [], ys => some ys
  | x :: xs, [] => some (x :: xs)
  | x :: xs, y :: ys =>
    match bcastDim x y, broadcastRev xs ys with
    | some d, some rest => some (d :: rest)
    | _, _ => none

/-- Shape of an elementwise product under the runtime's broadcasting
rules (right-aligned dimension matching). -/
def broadcastShape (a b : Shp) : Option Shp :=
  (broadcastRev a.reverse b.reverse).map List.reverse

/-- Modelled from the spec: the filterbank encoder maps a canonical
(batch, 1, time) waveform to a (batch, features, frames) representation;
the frame count is an arbitrary function of the input length, standing for
the stride/kernel dependence. -/
def encShape (nFeatsOut : Nat) (framesOf : Nat → Nat) : Shp → Option Shp
  | [b, c, l] => if c = 1 then some [b, nFeatsOut, framesOf l] else none
  | _ => none

/-- Modelled from the spec: take_mag halves the feature axis of a
(batch, features, frames) representation (magnitude of re/im pairs). -/
def takeMagShape : Shp → Option Shp
  | [b, f, t] => some [b, f / 2, t]
  | _ => none

/-- Modelled from the spec: take_cat concatenates the magnitude features
with the full re/im features along the feature axis. -/
def takeCatShape : Shp → Option Shp
  | [b, f, t] => some [b, f / 2 + f, t]
  | _ => none

/-- DeMask.preprocess_masker_input (src/asteroid/models/demask.py, lines
144-150) at shape level: dispatch on input_type. -/
def preprocessMaskerShape (input_type : String) (s : Shp) : Option Shp :=
  if input_type = "mag" then takeMagShape s
  else if input_type = "cat" then takeCatShape s
  else some s

/-- The masker network at shape level: a stack of norms, 1x1 convolutions
and activations accepts exactly rank-3 input whose channel count matches
the first layer, and maps the channel count to the output feature count
while preserving batch and frames. -/
def maskerShape (nIn nOut : Nat) : Shp → Option Shp
  | [b, c, t] => if c = nIn then some [b, nOut, t] else none
  | _ => none

/-- DeMask.postprocess_masks (src/asteroid/models/demask.py, lines
157-161) at shape level: for mag output the mask is repeated twice along
the channel axis, otherwise returned unchanged. -/
def postprocessMasksShape (output_type : String) (s : Shp) : Option Shp :=
  if output_type = "mag" then
    match s with
    | [b, c, t] => some [b, 2 * c, t]
    | _ => none
  else some s

/-- DeMask.preprocess_product_input (src/asteroid/models/demask.py, lines
152-155) at shape level: identity for mag output, unsqueeze(1) otherwise. -/
def preprocessProductShape (output_type : String) (s : Shp) : Shp :=
  if output_type = "mag" then s else insertOneAt 1 s

/-- Modelled from the spec: the filterbank decoder turns a transformed
representation back into a waveform, collapsing the trailing
(features, frames) axes into a sample axis whose length is an arbitrary
function of the frame count. -/
def decShape (samplesOf : Nat → Nat) (s : Shp) : Option Shp :=
  if 3 ≤ s.length then some (s.take (s.length - 2) ++ [samplesOf (s.getLastD 0)])
  else none

/-- Modelled from the spec: pad_x_to_y trims or zero-pads the trailing
dimension of the synthesized waveform to the reference waveform's trailing
dimension. -/
def padShape (x y : Shp) : Option Shp :=
  match x, y with
  | [], _ => none
  | _, [] => none
  | _, _ => some (x.take (x.length - 1) ++ [y.getLastD 0])

/-- DeMask.forward (src/asteroid/models/demask.py, lines 121-142) at shape
level: rank-1 input is unsqueezed twice, rank-2 input once; the canonical
tensor runs through encoder, masker-input preprocessing, masker, mask
postprocessing, the broadcast product with the (possibly unsqueezed)
representation, decoder and padding; a rank-1 input is squeezed back at
the end. -/
def forwardShape (input_type output_type : String) (nFeatsOut : Nat)
    (framesOf samplesOf : Nat → Nat) (s : Shp) : Option Shp :=
  let wasOneD := s.length = 1
  let s1 := if s.length = 1 then insertOneAt 1 (insertOneAt 0 s) else s
  let wav := if s1.length = 2 then insertOneAt 1 s1 else s1
  match encShape nFeatsOut framesOf wav with
  | none => none
  | some tf =>
    match preprocessMaskerShape input_type tf with
    | none => none
    | some maskIn =>
      match (get_n_feats_input input_type nFeatsOut).toOption,
            (get_n_feats_output output_type nFeatsOut).toOption with
      | some nIn, some nOut =>
        match maskerShape nIn nOut maskIn with
        | none => none
        | some em =>
          match postprocessMasksShape output_type em with
          | none => none
          | some em2 =>
            match broadcastShape em2 (preprocessProductShape output_type tf) with
            | none => none
            | some prodShp =>
              match decShape samplesOf prodShp with
              | none => none
              | some dv =>
                match padShape dv wav with
                | none => none
                | some out => some (if wasOneD then squeeze0Shp out else out)
      | _, _ => none

/-- C2 (amended): for every DeMask model with output_type mag (any valid
input_type, even encoder feature count) and every filterbank stride and
kernel choice (arbitrary frame-count and sample-count functions), forward
maps a rank-1 input of length L to a rank-1 output of length L, a rank-2
input of shape (B, L) to an output of shape (B, L), and a rank-3 input of
shape (B, 1, L) to an output whose trailing time dimension is L: the
padding step compensates exactly. -/
theorem demask_forward_shape_mag (input_type : String) (k : Nat)
    (framesOf samplesOf : Nat → Nat)
    (hin : input_type = "mag" ∨ input_type = "reim" ∨ input_type = "cat")
    (B L : Nat) :
    forwardShape input_type "mag" (2 * k) framesOf samplesOf [L] = some [L] ∧
    forwardShape input_type "mag" (2 * k) framesOf samplesOf [B, L] = some [B, L] ∧
    forwardShape input_type "mag" (2 * k) framesOf samplesOf [B, 1, L] = some [B, L] := by
  have h2k : 2 * k / 2 = k := by omega
  rcases hin with h | h | h <;> subst h <;>
    refine ⟨?_, ?_, ?_⟩ <;>
      simp [forwardShape, insertOneAt, encShape, preprocessMaskerShape, takeMagShape,
        takeCatShape, get_n_feats_input, get_n_feats_output, maskerShape,
        postprocessMasksShape, preprocessProductShape, broadcastShape, broadcastRev,
        bcastDim, decShape, padShape, squeeze0Shp, Except.toOption, List.getLastD, h2k]

/-- C2 witness: the amended statement instantiated at a concrete model
(mag input and output, feature count 2, frame count L/4+1, sample count
4T) on a length-8 signal with batch size 3. -/
theorem demask_forward_shape_mag_witness :
    forwardShape "mag" "mag" (2 * 1) (fun l => l / 4 + 1) (fun t => 4 * t) [8] = some [8] ∧
    forwardShape "mag" "mag" (2 * 1) (fun l => l / 4 + 1) (fun t => 4 * t) [3, 8] = some [3, 8] ∧
    forwardShape "mag" "mag" (2 * 1) (fun l => l / 4 + 1) (fun t => 4 * t) [3, 1, 8] =
      some [3, 8] :=
  demask_forward_shape_mag "mag" 1 (fun l => l / 4 + 1) (fun t => 4 * t) (Or.inl rfl) 3 8

/-- C2 counterexample: as stated over every constructed DeMask model the
claim is false.  With output_type reim the mask (batch, features, frames)
is multiplied with the unsqueezed (batch, 1, features, frames)
representation, broadcasting an extra batch-sized axis: a rank-1 input of
length 8 returns shape (1, 8) instead of a rank-1 length-8 output.
Moreover a rank-3 input with a channel dimension of size 2 fails inside
the masker instead of returning an output. -/
theorem demask_forward_shape_cex :
    forwardShape "mag" "reim" 2 (fun l => l / 4 + 1) (fun t => 4 * t) [8] = some [1, 8] ∧
    ([1, 8] : Shp) ≠ [8] ∧
    forwardShape "mag" "mag" 2 (fun l => l / 4 + 1) (fun t => 4 * t) [3, 2, 8] = none := by
  refine ⟨by decide, by decide, by decide⟩

/-- Helper: an ok result of the input-feature computation forces a valid
input_type string. -/
theorem get_n_feats_input_ok (it : String) (F n : Nat)
    (h : get_n_feats_input it F = .ok n) :
    it = "mag" ∨ it = "reim" ∨ it = "cat" := by
  by_contra hc
  push_neg at hc
  obtain ⟨h1, h2, h3⟩ := hc
  simp [get_n_feats_input, h1, h2, h3] at h

/-- Helper: an ok result of the output-feature computation forces a valid
output_type string. -/
theorem get_n_feats_output_ok (ot : String) (F n : Nat)
    (h : get_n_feats_output ot F = .ok n) :
    ot = "mag" ∨ ot = "reim" := by
  by_contra hc
  push_neg at hc
  obtain ⟨h1, h2⟩ := hc
  simp [get_n_feats_output, h1, h2] at h

/-- Helper: a successfully built masker forces valid input and output
type strings (both feature computations ran during construction). -/
theorem build_masker_nn_ok (conf : DeMaskConf) (F : Nat) (net : List Layer)
    (h : build_masker_nn conf F = .ok net) :
    (conf.input_type = "mag" ∨ conf.input_type = "reim" ∨ conf.input_type = "cat") ∧
    (conf.output_type = "mag" ∨ conf.output_type = "reim") := by
  unfold build_masker_nn at h
  cases hI : get_n_feats_input conf.input_type F with
  | error e => rw [hI] at h; exact absurd h (by simp)
  | ok nIn =>
    rw [hI] at h
    cases hN : normsGet conf.norm_type with
    | error e => rw [hN] at h; exact absurd h (by simp)
    | ok k1 =>
      rw [hN] at h
      cases hA : activationsGet conf.activation with
      | error e => rw [hA] at h; exact absurd h (by simp)
      | ok k2 =>
        rw [hA] at h
        cases hO : get_n_feats_output conf.output_type F with
        | error e => rw [hO] at h; exact absurd h (by simp)
        | ok nOut =>
          exact ⟨get_n_feats_input_ok _ _ _ hI, get_n_feats_output_ok _ _ _ hO⟩

/-- C3: constructing a DeMask model with an input_type outside
mag/reim/cat or an output_type outside mag/reim fails during
construction itself (the embedded init returns an error, so no model
value exists on which forward could later be called): validation is not
deferred to the first forward call. -/
theorem demask_init_rejects_bad_types (conf : DeMaskConf)
    (h : conf.input_type ∉ (["mag", "reim", "cat"] : List String) ∨
         conf.output_type ∉ (["mag", "reim"] : List String)) :
    ∃ e, DeMaskInit conf = .error e := by
  cases hEq : DeMaskInit conf with
  | error e => exact ⟨e, rfl⟩
  | ok M =>
    exfalso
    unfold DeMaskInit at hEq
    cases hF : makeEncDec conf with
    | error e => rw [hF] at hEq; simp at hEq
    | ok F =>
      rw [hF] at hEq
      simp only at hEq
      cases hB : build_masker_nn conf F with
      | error e => rw [hB] at hEq; simp at hEq
      | ok net =>
        obtain ⟨hin, hout⟩ := build_masker_nn_ok conf F net hB
        rcases h with h | h
        · simp at h
          rcases hin with h1 | h1 | h1 <;> simp [h1] at h
        · simp at h
          rcases hout with h1 | h1 <;> simp [h1] at h

/-- C3 witness: a model with the unknown input type "spectrogram" is
rejected at construction. -/
theorem demask_init_rejects_bad_types_witness :
    ∃ e, DeMaskInit { defaultConf with input_type := "spectrogram" } = .error e :=
  demask_init_rejects_bad_types { defaultConf with input_type := "spectrogram" }
    (Or.inl (by decide))

/-- C9: output_type cat is rejected with NotImplementedError at
construction even though input_type cat is accepted: the valid output
types (mag, reim) are a strict subset of the valid input types
(mag, reim, cat). -/
theorem demask_cat_output_vs_input :
    DeMaskInit { defaultConf with output_type := "cat" } =
      .error "NotImplementedError: Output type should be either mag or reim" ∧
    ∃ M, DeMaskInit { defaultConf with input_type := "cat" } = .ok M := by
  exact ⟨rfl, ⟨_, rfl⟩⟩

/-- C10: with hidden_dims empty (and otherwise valid configuration
strings) construction succeeds and the masker network is exactly one
normalization layer over the input feature count, one 1x1 convolution
from the input feature count straight to the output feature count, and
the mask activation: the hidden-layer loop contributes nothing. -/
theorem demask_empty_hidden_masker (conf : DeMaskConf)
    (hh : conf.hidden_dims = [])
    (hin : conf.input_type = "mag" ∨ conf.input_type = "reim" ∨ conf.input_type = "cat")
    (hout : conf.output_type = "mag" ∨ conf.output_type = "reim")
    (hnorm : conf.norm_type ∈ normKeys)
    (hact : conf.activation ∈ actKeys)
    (hmask : conf.mask_act ∈ actKeys)
    (hfb : conf.fb_type ∈ fbKeys) :
    ∃ M nIn nOut,
      DeMaskInit conf = .ok M ∧
      get_n_feats_input conf.input_type M.n_feats_out = .ok nIn ∧
      get_n_feats_output conf.output_type M.n_feats_out = .ok nOut ∧
      M.masker = [Layer.normLayer conf.norm_type nIn, Layer.conv1d nIn nOut 1,
                  Layer.act conf.mask_act] := by
  have hF : makeEncDec conf = .ok conf.n_filters := by simp [makeEncDec, hfb]
  obtain ⟨nIn, hI⟩ : ∃ nIn, get_n_feats_input conf.input_type conf.n_filters = .ok nIn := by
    rcases hin with h | h | h
    · exact ⟨conf.n_filters / 2, by simp [get_n_feats_input, h]⟩
    · exact ⟨conf.n_filters, by simp [get_n_feats_input, h]⟩
    · exact ⟨conf.n_filters / 2 + conf.n_filters, by simp [get_n_feats_input, h]⟩
  obtain ⟨nOut, hO⟩ : ∃ nOut, get_n_feats_output conf.output_type conf.n_filters = .ok nOut := by
    rcases hout with h | h
    · exact ⟨conf.n_filters / 2, by simp [get_n_feats_output, h]⟩
    · exact ⟨conf.n_filters, by simp [get_n_feats_output, h]⟩
  have hN : normsGet conf.norm_type = .ok conf.norm_type := by simp [normsGet, hnorm]
  have hA : activationsGet conf.activation = .ok conf.activation := by
    simp [activationsGet, hact]
  have hM2 : activationsGet conf.mask_act = .ok conf.mask_act := by
    simp [activationsGet, hmask]
  have hB : build_masker_nn conf conf.n_filters =
      .ok [Layer.normLayer conf.norm_type nIn, Layer.conv1d nIn nOut 1,
           Layer.act conf.mask_act] := by
    simp [build_masker_nn, hI, hN, hA, hh, hO, hM2]
  exact ⟨⟨conf, conf.n_filters,
          [Layer.normLayer conf.norm_type nIn, Layer.conv1d nIn nOut 1,
           Layer.act conf.mask_act]⟩, nIn, nOut,
         by simp [DeMaskInit, hF, hB], hI, hO, rfl⟩

/-- C10 witness: the default configuration with hidden_dims emptied
satisfies all side conditions and yields the three-layer masker. -/
theorem demask_empty_hidden_masker_witness :
    ∃ M nIn nOut,
      DeMaskInit { defaultConf with hidden_dims := ([] : List Nat) } = .ok M ∧
      get_n_feats_input ({ defaultConf with hidden_dims := ([] : List Nat) }
        : DeMaskConf).input_type M.n_feats_out = .ok nIn ∧
      get_n_feats_output ({ defaultConf with hidden_dims := ([] : List Nat) }
        : DeMaskConf).output_type M.n_feats_out = .ok nOut ∧
      M.masker = [Layer.normLayer ({ defaultConf with hidden_dims := ([] : List Nat) }
                    : DeMaskConf).norm_type nIn,
                  Layer.conv1d nIn nOut 1,
                  Layer.act ({ defaultConf with hidden_dims := ([] : List Nat) }
                    : DeMaskConf).mask_act] :=
  demask_empty_hidden_masker { defaultConf with hidden_dims := ([] : List Nat) }
    rfl (Or.inl rfl) (Or.inl rfl) (by decide) (by decide) (by decide) (by decide)

/-- C4 (code bug): get_model_args does not return the keyword arguments
needed to reconstruct an identically configured instance.  It stores the
whole fb_kwargs dictionary under the key "fb_kwargs" and then also
flattens the fb_kwargs entries into the same dictionary; feeding the
result back through the double-star splat of DeMask.__init__ sends the
literal "fb_kwargs" key into the new instance's catch-all, so the
reconstructed fb_kwargs attribute differs from the original, both for a
model built with the extra filterbank keyword window=7 and for the
default model with empty fb_kwargs. -/
theorem get_model_args_roundtrip_fails :
    (demaskConfOfKwargs (get_model_args ⟨{ defaultConf with
        fb_kwargs := [("window", PyVal.pnat 7)] }, 512, []⟩)).fb_kwargs ≠
      [("window", PyVal.pnat 7)] ∧
    (demaskConfOfKwargs (get_model_args ⟨defaultConf, 512, []⟩)).fb_kwargs ≠ [] := by
  constructor
  · intro h
    exact absurd (congrArg List.length h) (by decide)
  · intro h
    exact absurd (congrArg List.length h) (by decide)

/-! ### Data-level mask postprocessing (C8) -/

/-- DeMask.postprocess_masks (src/asteroid/models/demask.py, lines
157-161) at data level on a (batch, channel, time) tensor embedded as
nested lists: for mag output the mask is repeated twice along the channel
axis (torch repeat(1, 2, 1) tiles the channel list), otherwise it is
returned unchanged. -/
def postprocess_masks (output_type : String) (est_masks : List (List (List Rat))) :
    List (List (List Rat)) :=
  if output_type = "mag" then est_masks.map (fun chans => chans ++ chans) else est_masks

/-- C8: for output_type mag the mask applied inside forward is the masker
output repeated twice along the channel axis, so in every batch element
the first half of the mask channels equals the second half: the real-part
and imaginary-part channels of the representation are multiplied by the
same magnitude mask. -/
theorem postprocess_masks_mag_halves (m : List (List (List Rat))) :
    postprocess_masks "mag" m = m.map (fun chans => chans ++ chans) ∧
    ∀ chans ∈ postprocess_masks "mag" m,
      chans.take (chans.length / 2) = chans.drop (chans.length / 2) := by
  have hmm : postprocess_masks "mag" m = m.map (fun chans => chans ++ chans) := by
    simp [postprocess_masks]
  refine ⟨hmm, ?_⟩
  intro chans hc
  rw [hmm, List.mem_map] at hc
  obtain ⟨c, hcm, rfl⟩ := hc
  have hlen : (c ++ c).length / 2 = c.length := by rw [List.length_append]; omega
  rw [hlen, List.take_left, List.drop_left]

/-! ### Store-level semantics of DeMask.forward (C7)

Torch tensors live in a store; every operation used by forward is
out-of-place (no in-place underscore variant or index assignment appears
in the source), so each step reads existing cells by value and appends a
fresh result cell.  The external encoder, decoder, masker network, the
transforms, the broadcast product and the padding utility are pure
functions on tensor values (spec section 5), taken as parameters. -/

/-- A tensor value of rank 1 to 4 over rationals. -/
inductive TVal where
  | t1 (v : List Rat)
  | t2 (v : List (List Rat))
  | t3 (v : List (List (List Rat)))
  | t4 (v : List (List (List (List Rat))))
deriving DecidableEq

/-- Rank (torch ndim) of a tensor value. -/
def TVal.rank : TVal → Nat
  | .t1 _ => 1
  | .t2 _ => 2
  | .t3 _ => 3
  | .t4 _ => 4

/-- torch unsqueeze(0): wrap the whole tensor in a fresh leading axis. -/
def unsqueeze0 : TVal → TVal
  | .t1 v => .t2 [v]
  | .t2 v => .t3 [v]
  | .t3 v => .t4 [v]
  | .t4 v => .t4 v

/-- torch unsqueeze(1): insert a singleton axis after the leading axis. -/
def unsqueeze1 : TVal → TVal
  | .t1 v => .t1 v
  | .t2 v => .t3 (v.map (fun r => [r]))
  | .t3 v => .t4 (v.map (fun m => [m]))
  | .t4 v => .t4 v

/-- torch squeeze(0): drop the leading axis when it has size one. -/
def squeeze0 : TVal → TVal
  | .t2 [v] => .t1 v
  | .t3 [v] => .t2 v
  | .t4 [v] => .t3 v
  | t => t

/-- torch repeat(1, 2, 1) on a rank-3 tensor: tile the channel axis
twice (the mask duplication of postprocess_masks). -/
def repeatCh : TVal → TVal
  | .t3 v => .t3 (v.map (fun chans => chans ++ chans))
  | t => t

/-- The tensor store: allocated tensor values in allocation order. -/
abbrev Heap := List TVal

/-- Allocate a freshly computed tensor value: append it to the store and
return its reference. -/
def alloc (h : Heap) (v : TVal) : Heap × Nat := (h ++ [v], h.length)

/-- The external collaborators of DeMask.forward as pure functions on
tensor values: encoder, decoder, masker network, take_mag, take_cat, the
broadcast product and pad_x_to_y.  Modelled from the spec: all are
stateless pure functions over immutable inputs. -/
structure TorchOps where
  enc : TVal → TVal
  dec : TVal → TVal
  maskerNet : TVal → TVal
  takeMag : TVal → TVal
  takeCat : TVal → TVal
  mul : TVal → TVal → TVal
  padXToY : TVal → TVal → TVal

/-- DeMask.forward (src/asteroid/models/demask.py, lines 121-142) with
the tensor store made explicit: each torch call reads its operands from
the store and allocates the fresh result; branches that return an
existing tensor unchanged (reim masker input, non-mag mask
postprocessing, mag product preprocessing) reuse the existing reference
exactly as the source does. -/
def forwardStore (ops : TorchOps) (input_type output_type : String)
    (h0 : Heap) (wavRef : Nat) : Heap × Nat :=
  let dflt : TVal := .t1 []
  let wv0 := h0.getD wavRef dflt
  let s1 : Heap × Nat :=
    if wv0.rank = 1 then
      let p := alloc h0 (unsqueeze0 wv0)
      alloc p.1 (unsqueeze1 (p.1.getD p.2 dflt))
    else (h0, wavRef)
  let wv1 := s1.1.getD s1.2 dflt
  let s2 : Heap × Nat := if wv1.rank = 2 then alloc s1.1 (unsqueeze1 wv1) else s1
  let wv := s2.1.getD s2.2 dflt
  let sEnc := alloc s2.1 (ops.enc wv)
  let tf := sEnc.1.getD sEnc.2 dflt
  let sMaskIn : Heap × Nat :=
    if input_type = "mag" then alloc sEnc.1 (ops.takeMag tf)
    else if input_type = "cat" then alloc sEnc.1 (ops.takeCat tf)
    else sEnc
  let maskIn := sMaskIn.1.getD sMaskIn.2 dflt
  let sEM := alloc sMaskIn.1 (ops.maskerNet maskIn)
  let em := sEM.1.getD sEM.2 dflt
  let sEM2 : Heap × Nat := if output_type = "mag" then alloc sEM.1 (repeatCh em) else sEM
  let em2 := sEM2.1.getD sEM2.2 dflt
  let sTf2 : Heap × Nat :=
    if output_type = "mag" then (sEM2.1, sEnc.2) else alloc sEM2.1 (unsqueeze1 tf)
  let tf2 := sTf2.1.getD sTf2.2 dflt
  let sProd := alloc sTf2.1 (ops.mul em2 tf2)
  let prodv := sProd.1.getD sProd.2 dflt
  let sDec := alloc sProd.1 (ops.dec prodv)
  let dv := sDec.1.getD sDec.2 dflt
  let sPad := alloc sDec.1 (ops.padXToY dv wv)
  let outv := sPad.1.getD sPad.2 dflt
  if wv0.rank = 1 then alloc sPad.1 (squeeze0 outv) else sPad

/-- Helper: the store after forward is the original store plus freshly
appended cells; no existing cell is written. -/
theorem forwardStore_extends (ops : TorchOps) (it ot : String)
    (h0 : Heap) (wavRef : Nat) :
    ∃ ext, (forwardStore ops it ot h0 wavRef).1 = h0 ++ ext := by
  have hp : h0 <+: (forwardStore ops it ot h0 wavRef).1 := by
    unfold forwardStore
    simp only [alloc]
    split_ifs <;>
      (simp only [List.append_assoc]; exact List.prefix_append _ _)
  obtain ⟨ext, he⟩ := hp
  exact ⟨ext, he.symm⟩

/-- C7: DeMask.forward never mutates caller-visible state: every tensor
already in the store before the call, in particular the caller-supplied
input tensor, holds exactly the same value afterwards. -/
theorem forward_no_mutation (ops : TorchOps) (it ot : String)
    (h0 : Heap) (wavRef i : Nat) (hi : i < h0.length) :
    ((forwardStore ops it ot h0 wavRef).1)[i]? = h0[i]? := by
  obtain ⟨ext, he⟩ := forwardStore_extends ops it ot h0 wavRef
  rw [he]
  exact List.getElem?_append_left hi

/-- C7 witness: with identity collaborators and a one-cell store holding
the input signal, the input cell is unchanged by forward. -/
theorem forward_no_mutation_witness :
    ((forwardStore ⟨id, id, id, id, id, fun a _ => a, fun a _ => a⟩ "mag" "mag"
        [TVal.t1 [1]] 0).1)[0]? = ([TVal.t1 [1]] : Heap)[0]? :=
  forward_no_mutation ⟨id, id, id, id, id, fun a _ => a, fun a _ => a⟩ "mag" "mag"
    [TVal.t1 [1]] 0 0 (by decide)

/-! ### Metric entry-point shape validation (C5)

The metric library itself is not part of the sources (only its tests
are); the validation behaviour is modelled from the spec. -/

/-- The SI-SDR-family and MSE metric families of the library. -/
inductive MetricFamily where
  | sisdr | sdsdr | snr | mse
deriving DecidableEq

/-- The three calling conventions of the metric library. -/
inductive CallConvention where
  | pairwise | singlesrc | multisrc
deriving DecidableEq

/-- Modelled from the spec: the declared input rank of each calling
convention: pairwise and multi-source expect (batch, n_src, time),
single-source expects (batch, time). -/
def declaredRank : CallConvention → Nat
  | .pairwise => 3
  | .singlesrc => 2
  | .multisrc => 3

/-- Modelled from the spec: every metric entry point validates the shapes
of estimate and target against the rank declared by its calling
convention and raises a TypeError on mismatch, never broadcasting or
truncating. -/
def checkLossShapes (fam : MetricFamily) (c : CallConvention) (est target : Shp) :
    Except String Unit :=
  if est.length = declaredRank c ∧ target.length = declaredRank c then .ok ()
  else .error "TypeError: input rank does not match the declared calling convention"

/-- C5: for every metric family and calling convention, the declared
shape passes validation, a missing batch dimension is rejected, and a
singleton dimension inserted at any position is rejected. -/
theorem loss_shape_validation (fam : MetricFamily) (c : CallConvention) (s : Shp)
    (hs : s.length = declaredRank c) :
    checkLossShapes fam c s s = .ok () ∧
    (∃ e, checkLossShapes fam c s.tail s.tail = .error e) ∧
    (∀ i, i ≤ s.length →
      ∃ e, checkLossShapes fam c (insertOneAt i s) (insertOneAt i s) = .error e) := by
  have hrank : 1 ≤ declaredRank c := by cases c <;> simp [declaredRank]
  refine ⟨by simp [checkLossShapes, hs], ?_, ?_⟩
  · have hne : ¬ (s.length - 1 = declaredRank c) := by omega
    exact ⟨"TypeError: input rank does not match the declared calling convention",
           by simp [checkLossShapes, List.length_tail, hne]⟩
  · intro i hi
    have hlen2 : (insertOneAt i s).length = s.length + 1 := by
      simp [insertOneAt]
      omega
    have hne : ¬ ((insertOneAt i s).length = declaredRank c) := by
      rw [hlen2, hs]
      omega
    exact ⟨"TypeError: input rank does not match the declared calling convention",
           by simp [checkLossShapes, hne]⟩

/-- C5 witness: the single-source MSE entry point at its declared shape
(5, 1000) accepts it, rejects the batchless (1000), and rejects every
singleton insertion. -/
theorem loss_shape_validation_witness :
    checkLossShapes MetricFamily.mse CallConvention.singlesrc [5, 1000] [5, 1000] = .ok () ∧
    (∃ e, checkLossShapes MetricFamily.mse CallConvention.singlesrc
        ([5, 1000] : Shp).tail ([5, 1000] : Shp).tail = .error e) ∧
    (∀ i, i ≤ ([5, 1000] : Shp).length →
      ∃ e, checkLossShapes MetricFamily.mse CallConvention.singlesrc
        (insertOneAt i [5, 1000]) (insertOneAt i [5, 1000]) = .error e) :=
  loss_shape_validation MetricFamily.mse CallConvention.singlesrc [5, 1000] rfl

/-! ### Perceptual and intelligibility losses: transpose tolerance (C6)

The PMSQE and NegSTOI implementations are not part of the sources (only
their tests are); the orientation-normalization wrapper they share is
modelled from the spec, with the perceptual core left as a parameter. -/

/-- A single-channel time-frequency matrix (rows = one axis, columns =
the other). -/
abbrev FMat := List (List Rat)

/-- Transpose of a rectangular matrix given as nested lists. -/
def transposeMat (m : FMat) : FMat :=
  (List.range (m.headD []).length).map (fun j => m.map (fun row => row.getD j 0))

/-- Modelled from the spec: orientation normalization of a perceptual
loss input: if the leading of the two trailing axes already has the
expected frequency-bin count the matrix is kept, otherwise it is
transposed back to canonical (frequency, time) order. -/
def orientTo (nfreq : Nat) (m : FMat) : FMat :=
  if m.length = nfreq then m else transposeMat m

/-- Modelled from the spec: a perceptual or intelligibility loss
(PMSQE, NegSTOI) normalizes the orientation of both inputs and then
applies its perceptual core. -/
def perceptualLoss (core : FMat → FMat → Rat) (nfreq : Nat) (est ref : FMat) : Rat :=
  core (orientTo nfreq est) (orientTo nfreq ref)

/-- Modelled from the spec: the batched loss maps the per-element loss
over the batch, returning one value per batch element. -/
def perceptualLossBatch (core : FMat → FMat → Rat) (nfreq : Nat)
    (estB refB : List FMat) : List Rat :=
  (estB.zip refB).map (fun p => perceptualLoss core nfreq p.1 p.2)

/-- Helper: transposing a rectangular matrix twice restores it, provided
the column count is positive. -/
theorem transposeMat_twice (m : FMat) (c : Nat) (hc : 0 < c)
    (hrect : ∀ row ∈ m, row.length = c) :
    transposeMat (transposeMat m) = m := by
  match m with
  | [] => simp [transposeMat]
  | r0 :: rest =>
    have hr0 : r0.length = c := hrect r0 (by simp)
    obtain ⟨c1, rfl⟩ : ∃ c1, c = c1 + 1 := ⟨c - 1, by omega⟩
    have hT : transposeMat (r0 :: rest) =
        (List.range (c1 + 1)).map
          (fun j => (r0 :: rest).map (fun row => row.getD j 0)) := by
      simp [transposeMat, hr0]
    have hhead : ((List.range (c1 + 1)).map
        (fun j => (r0 :: rest).map (fun row => row.getD j 0))).headD [] =
        (r0 :: rest).map (fun row => row.getD 0 0) := by
      rw [List.range_succ_eq_map]
      simp
    rw [hT]
    unfold transposeMat
    rw [hhead]
    apply List.ext_getElem
    · simp
    · intro i h1 h2
      have h2m : i < (r0 :: rest).length := by simpa using h1
      simp only [List.getElem_map, List.getElem_range]
      apply List.ext_getElem
      · simp [hrect ((r0 :: rest)[i]) (List.getElem_mem h2m)]
      · intro j hj1 hj2
        have hj : j < c1 + 1 := by simpa using hj1
        simp only [List.getElem_map, List.getElem_range]
        rw [List.getD_eq_getElem _ _ (by simpa using h2m)]
        rw [List.getElem_map]
        rw [List.getD_eq_getElem _ _
          (by rw [hrect ((r0 :: rest)[i]) (List.getElem_mem h2m)]; exact hj)]

/-- Helper: on a rectangular (nfreq, T) matrix with T different from
nfreq, orientation normalization undoes a transpose: the transposed input
is detected by its row count and transposed back, the canonical input is
kept. -/
theorem orientTo_transposeMat (a : FMat) (nfreq T : Nat)
    (ha : a.length = nfreq) (harow : ∀ row ∈ a, row.length = T)
    (hnf : 0 < nfreq) (hT : 0 < T) (hne : T ≠ nfreq) :
    orientTo nfreq (transposeMat a) = orientTo nfreq a := by
  obtain ⟨r0, rest, rfl⟩ : ∃ r0 rest, a = r0 :: rest := by
    cases a with
    | nil => simp at ha; omega
    | cons x xs => exact ⟨x, xs, rfl⟩
  have hlenT : (transposeMat (r0 :: rest)).length = T := by
    simp [transposeMat, harow r0 (by simp)]
  rw [orientTo, orientTo, if_neg (by rw [hlenT]; exact hne), if_pos ha]
  exact transposeMat_twice _ T hT harow

/-- C6: every perceptual-quality or intelligibility loss (arbitrary
perceptual core behind the shared orientation normalization) produces
identical batched outputs on canonically ordered (frequency, time)
inputs and on inputs with the two trailing axes transposed. -/
theorem perceptual_loss_transpose_invariant (core : FMat → FMat → Rat) (nfreq T : Nat)
    (estB refB : List FMat)
    (hE : ∀ m ∈ estB, m.length = nfreq ∧ ∀ row ∈ m, row.length = T)
    (hR : ∀ m ∈ refB, m.length = nfreq ∧ ∀ row ∈ m, row.length = T)
    (hnf : 0 < nfreq) (hT : 0 < T) (hne : T ≠ nfreq) :
    perceptualLossBatch core nfreq (estB.map transposeMat) (refB.map transposeMat) =
      perceptualLossBatch core nfreq estB refB := by
  unfold perceptualLossBatch
  rw [List.zip_map, List.map_map]
  apply List.map_congr_left
  intro p hp
  obtain ⟨hp1, hp2⟩ := List.of_mem_zip hp
  obtain ⟨hE1, hE2⟩ := hE p.1 hp1
  obtain ⟨hR1, hR2⟩ := hR p.2 hp2
  show perceptualLoss core nfreq (transposeMat p.1) (transposeMat p.2) =
    perceptualLoss core nfreq p.1 p.2
  unfold perceptualLoss
  rw [orientTo_transposeMat p.1 nfreq T hE1 hE2 hnf hT hne,
      orientTo_transposeMat p.2 nfreq T hR1 hR2 hnf hT hne]

/-- C6 witness: a concrete core on a batch of one (2, 3) spectrum pair:
the transposed call returns the same batched output. -/
theorem perceptual_loss_transpose_invariant_witness :
    perceptualLossBatch (fun a b => (a.map List.sum).sum - (b.map List.sum).sum) 2
      (([[[1, 2, 3], [4, 5, 6]]] : List FMat).map transposeMat)
      (([[[0, 1, 0], [2, 0, 2]]] : List FMat).map transposeMat) =
    perceptualLossBatch (fun a b => (a.map List.sum).sum - (b.map List.sum).sum) 2
      ([[[1, 2, 3], [4, 5, 6]]] : List FMat)
      ([[[0, 1, 0], [2, 0, 2]]] : List FMat) :=
  perceptual_loss_transpose_invariant
    (fun a b => (a.map List.sum).sum - (b.map List.sum).sum) 2 3
    [[[1, 2, 3], [4, 5, 6]]] [[[0, 1, 0], [2, 0, 2]]]
    (by decide) (by decide) (by decide) (by decide) (by decide)

/-! ### PIT loss wrapper (C1)

The PITLossWrapper and the metric library are not part of the sources
(only their tests are); wrapper and metrics are modelled from spec
sections 4.1-4.3 over exact rationals. -/

/-- A single-source signal. -/
abbrev Sig := List Rat

/-- The sources of one batch element. -/
abbrev SrcSet := List Sig

/-- Modelled from the spec: the pairwise metric of a mathematically
equivalent triplet generated by a base single-pair distortion f: entry
(i, j) of the cost matrix is the loss between target i and estimate j,
computed in one vectorized pass. -/
def pairwiseFromBase (f : Sig → Sig → Rat) (ests targets : SrcSet) : List (List Rat) :=
  targets.map (fun t => ests.map (fun e => f e t))

/-- Modelled from the spec: the multi-source metric of the triplet:
fixed-permutation average over sources of the base distortion, no
optimization. -/
def multisrcFromBase (f : Sig → Sig → Rat) (ests targets : SrcSet) : Rat :=
  (((ests.zip targets).map (fun p => f p.1 p.2)).sum) / (targets.length : Rat)

/-- Total cost of a permutation against a cost matrix: sum over target
index i of entry (i, sigma i). -/
def permTotal (M : List (List Rat)) (σ : List Nat) : Rat :=
  (σ.enum.map (fun ij => (M.getD ij.1 []).getD ij.2 0)).sum

/-- Modelled from the spec: scan a candidate list and keep the first
candidate achieving the minimal score (stable, deterministic
tie-breaking in enumeration order). -/
def argminFirst {α : Type} (g : α → Rat) : List α → Option (α × Rat)
  | [] => none
  | x :: xs =>
    match argminFirst g xs with
    | none => some (x, g x)
    | some p => if g x ≤ p.2 then some (x, g x) else some p

/-- Modelled from the spec: the permutation solver for an n-source
problem enumerates all permutations of 0..n-1 and selects the first one
achieving the minimal score. -/
def bestPerm (g : List Nat → Rat) (n : Nat) : List Nat × Rat :=
  (argminFirst g (List.permutations (List.range n))).getD ([], 0)

/-- Reorder the estimate sources by a permutation: entry i of the result
is estimate sigma i, aligning estimate sigma i with target i. -/
def reorderEst (σ : List Nat) (ests : SrcSet) : SrcSet :=
  σ.map (fun j => ests.getD j [])

/-- Modelled from the spec: one batch element of PITLossWrapper in
pairwise-matrix mode: the metric yields the cost matrix directly, the
solver minimizes its total over permutations, the cost is divided by the
source count, and the estimates are reordered by the winning
permutation. -/
def pitElemPwMtx (pwLoss : SrcSet → SrcSet → List (List Rat))
    (p : SrcSet × SrcSet) : Rat × SrcSet :=
  let M := pwLoss p.1 p.2
  let best := bestPerm (fun σ => permTotal M σ) M.length
  (best.2 / (M.length : Rat), reorderEst best.1 p.1)

/-- Modelled from the spec: one batch element in single-source broadcast
mode: the cost matrix is assembled by evaluating the single-source
metric on every target/estimate pair, then solved as in matrix mode. -/
def pitElemPwPt (f : Sig → Sig → Rat) (p : SrcSet × SrcSet) : Rat × SrcSet :=
  let M := p.2.map (fun t => p.1.map (fun e => f e t))
  let best := bestPerm (fun σ => permTotal M σ) M.length
  (best.2 / (M.length : Rat), reorderEst best.1 p.1)

/-- Modelled from the spec: one batch element in fixed-permutation mode:
no cost matrix is built; the multi-source metric is evaluated on every
reordering of the estimates and the first minimal one is kept. -/
def pitElemPermAvg (g : SrcSet → SrcSet → Rat) (p : SrcSet × SrcSet) : Rat × SrcSet :=
  let best := bestPerm (fun σ => g (reorderEst σ p.1) p.2) p.2.length
  (best.2, reorderEst best.1 p.1)

/-- Modelled from the spec: the batched wrapper: each batch element is
solved independently, the optimized loss is averaged over the batch, and
the reordered estimates are returned per batch element. -/
def pitBatch (elem : SrcSet × SrcSet → Rat × SrcSet)
    (estB targetB : List SrcSet) : Rat × List SrcSet :=
  let per := (estB.zip targetB).map elem
  ((per.map Prod.fst).sum / (per.length : Rat), per.map Prod.snd)

/-- Modelled from the spec: PITLossWrapper with pit_from pw_mtx. -/
def pitEvalPwMtx (pwLoss : SrcSet → SrcSet → List (List Rat))
    (estB targetB : List SrcSet) : Rat × List SrcSet :=
  pitBatch (pitElemPwMtx pwLoss) estB targetB

/-- Modelled from the spec: PITLossWrapper with pit_from pw_pt. -/
def pitEvalPwPt (f : Sig → Sig → Rat) (estB targetB : List SrcSet) : Rat × List SrcSet :=
  pitBatch (pitElemPwPt f) estB targetB

/-- Modelled from the spec: PITLossWrapper with pit_from perm_avg. -/
def pitEvalPermAvg (g : SrcSet → SrcSet → Rat)
    (estB targetB : List SrcSet) : Rat × List SrcSet :=
  pitBatch (pitElemPermAvg g) estB targetB

/-- Helper: the first-minimum scan only depends on the scores of the
candidates in the list. -/
theorem argminFirst_congr {α : Type} (g₁ g₂ : α → Rat) (l : List α)
    (h : ∀ x ∈ l, g₁ x = g₂ x) : argminFirst g₁ l = argminFirst g₂ l := by
  induction l with
  | nil => rfl
  | cons x xs ih =>
    have hx : g₁ x = g₂ x := h x (by simp)
    have ih2 := ih (fun y hy => h y (by simp [hy]))
    simp only [argminFirst, ih2, hx]

/-- Helper: dividing all scores by a positive constant rescales the
minimal score and keeps the same first minimizer. -/
theorem argminFirst_div {α : Type} (g : α → Rat) (c : Rat) (hc : 0 < c) (l : List α) :
    argminFirst (fun x => g x / c) l =
      (argminFirst g l).map (fun p => (p.1, p.2 / c)) := by
  induction l with
  | nil => rfl
  | cons x xs ih =>
    simp only [argminFirst, ih]
    cases h : argminFirst g xs with
    | none => rfl
    | some p =>
      by_cases hle : g x ≤ p.2
      · have h2 : g x / c ≤ p.2 / c := (div_le_div_iff_of_pos_right hc).mpr hle
        simp [hle, h2]
      · have h2 : ¬ (g x / c ≤ p.2 / c) :=
          fun hcon => hle ((div_le_div_iff_of_pos_right hc).mp hcon)
        simp [hle, h2]

/-- Helper: for a permutation of the target indices, the total of the
broadcast cost matrix along the permutation equals the summed base
distortions of the correspondingly reordered estimates against the
targets. -/
theorem permTotal_eq_reordered_sum (f : Sig → Sig → Rat) (t e : SrcSet) (σ : List Nat)
    (he : e.length = t.length)
    (hσ : σ.Perm (List.range t.length)) :
    permTotal (t.map (fun ti => e.map (fun ej => f ej ti))) σ =
      (((reorderEst σ e).zip t).map (fun p => f p.1 p.2)).sum := by
  have hσlen : σ.length = t.length := by simpa using hσ.length_eq
  have hσmem : ∀ j ∈ σ, j < t.length := by
    intro j hj
    simpa using hσ.mem_iff.mp hj
  unfold permTotal reorderEst
  congr 1
  apply List.ext_getElem
  · simp [hσlen]
  · intro k h1 h2
    have hk : k < σ.length := by simpa using h1
    have hkt : k < t.length := by rw [← hσlen]; exact hk
    simp only [List.getElem_map]
    rw [List.getElem_enum]
    rw [List.getElem_zip]
    simp only [List.getElem_map]
    have hσk : σ[k] < e.length := by
      rw [he]
      exact hσmem σ[k] (List.getElem_mem hk)
    have hMk : (t.map (fun ti => e.map (fun ej => f ej ti))).getD k [] =
        e.map (fun ej => f ej t[k]) := by
      rw [List.getD_eq_getElem _ _ (by simpa using hkt), List.getElem_map]
    have hek : (e.map (fun ej => f ej t[k])).getD σ[k] 0 = f e[σ[k]] t[k] := by
      rw [List.getD_eq_getElem _ _ (by simpa using hσk), List.getElem_map]
    have hES : e.getD σ[k] [] = e[σ[k]] := List.getD_eq_getElem e [] hσk
    rw [hMk, hek, hES]

/-- Helper: one batch element solved through the broadcast cost matrix
equals the same element solved by direct minimization of the
fixed-permutation average. -/
theorem pitElem_pt_eq_permAvg (f : Sig → Sig → Rat) (p : SrcSet × SrcSet)
    (he : p.1.length = p.2.length) (hpos : 0 < p.2.length) :
    pitElemPwPt f p = pitElemPermAvg (multisrcFromBase f) p := by
  have hc : (0 : Rat) < (p.2.length : Rat) := by exact_mod_cast hpos
  unfold pitElemPwPt pitElemPermAvg bestPerm
  simp only [List.length_map]
  have hcongr :
      argminFirst (fun σ => multisrcFromBase f (reorderEst σ p.1) p.2)
          (List.permutations (List.range p.2.length)) =
        argminFirst
          (fun σ => permTotal (p.2.map (fun t => p.1.map (fun e => f e t))) σ /
            (p.2.length : Rat))
          (List.permutations (List.range p.2.length)) := by
    apply argminFirst_congr
    intro σ hσ
    have hperm : σ.Perm (List.range p.2.length) := List.mem_permutations.mp hσ
    unfold multisrcFromBase
    rw [permTotal_eq_reordered_sum f p.2 p.1 σ he hperm]
  rw [hcongr, argminFirst_div _ _ hc]
  cases h : argminFirst
      (fun σ => permTotal (p.2.map (fun t => p.1.map (fun e => f e t))) σ)
      (List.permutations (List.range p.2.length)) with
  | none => simp
  | some q => simp

/-- Helper: the batched wrapper only depends on the per-element solver's
values on the batch. -/
theorem pitBatch_congr (e₁ e₂ : SrcSet × SrcSet → Rat × SrcSet)
    (estB targetB : List SrcSet)
    (h : ∀ p ∈ estB.zip targetB, e₁ p = e₂ p) :
    pitBatch e₁ estB targetB = pitBatch e₂ estB targetB := by
  unfold pitBatch
  rw [List.map_congr_left h]

/-- C1: for every base distortion f, every source count n in 2..4 and
every batch in which each element carries n estimates and n targets, the
three calling conventions of the PIT wrapper applied to the
mathematically equivalent metric triplet generated by f (pairwise matrix
mode, single-source broadcast mode, fixed-permutation average mode)
return exactly the same optimized loss and exactly the same reordered
estimates. -/
theorem pit_wrapper_convention_equiv (f : Sig → Sig → Rat) (n : Nat)
    (hn : n = 2 ∨ n = 3 ∨ n = 4)
    (estB targetB : List SrcSet)
    (hshape : ∀ p ∈ estB.zip targetB, p.1.length = n ∧ p.2.length = n) :
    pitEvalPwMtx (pairwiseFromBase f) estB targetB = pitEvalPwPt f estB targetB ∧
    pitEvalPwPt f estB targetB = pitEvalPermAvg (multisrcFromBase f) estB targetB := by
  refine ⟨rfl, ?_⟩
  unfold pitEvalPwPt pitEvalPermAvg
  apply pitBatch_congr
  intro p hp
  obtain ⟨h1, h2⟩ := hshape p hp
  refine pitElem_pt_eq_permAvg f p (by rw [h1, h2]) ?_
  rw [h2]
  rcases hn with h | h | h <;> omega

/-- C1 witness: the squared-error base distortion on a batch of one
two-source element: all three conventions agree on the loss and the
reordered estimates. -/
theorem pit_wrapper_convention_equiv_witness :
    pitEvalPwMtx
        (pairwiseFromBase
          (fun e t => ((e.zip t).map (fun q => (q.1 - q.2) * (q.1 - q.2))).sum))
        [[[1], [2]]] [[[2], [1]]] =
      pitEvalPwPt
        (fun e t => ((e.zip t).map (fun q => (q.1 - q.2) * (q.1 - q.2))).sum)
        [[[1], [2]]] [[[2], [1]]] ∧
    pitEvalPwPt
        (fun e t => ((e.zip t).map (fun q => (q.1 - q.2) * (q.1 - q.2))).sum)
        [[[1], [2]]] [[[2], [1]]] =
      pitEvalPermAvg
        (multisrcFromBase
          (fun e t => ((e.zip t).map (fun q => (q.1 - q.2) * (q.1 - q.2))).sum))
        [[[1], [2]]] [[[2], [1]]] := by
  have h := pit_wrapper_convention_equiv
    (fun e t => ((e.zip t).map (fun q => (q.1 - q.2) * (q.1 - q.2))).sum)
    2 (Or.inl rfl) [[[1], [2]]] [[[2], [1]]] (by decide)
  exact h

end Asteroid
